import Mathlib

/-!
Verification of the k6-performance-tests repository against its
natural-language specification.

Part 1 embeds the helper functions of the repository itself
(src/helper/contact.js and src/helper/user.js) over a small model of
k6 HTTP responses and of the k6 `check` combinator.

Part 2 models, from the specification, the minimal load-generation
harness the spec describes (Stage Scheduler, Metric Recorder,
Threshold Evaluator, Test Runner): that code is not part of the
repository (it lives in the external k6 engine), so each such
definition carries a doc comment starting with `Modelled from the
spec:` naming what is missing.
-/

namespace K6

/-! ## JavaScript value model

k6 scripts are JavaScript; `r.json()` yields a parsed JSON value and
member access plus truthiness follow JavaScript semantics. -/

/-- A parsed JSON value, as returned by a k6 `Response.json()` call. -/
inductive JsonVal where
  | jnull : JsonVal
  | jbool (b : Bool) : JsonVal
  | jnum (n : Int) : JsonVal
  | jstr (s : String) : JsonVal
  | jarr (elems : List JsonVal) : JsonVal
  | jobj (fields : List (String × JsonVal)) : JsonVal

/-- Lookup of a key in an association list (JS object fields, metric maps). -/
def assocFind {α : Type} : List (String × α) → String → Option α
  | [], _ => none
  | (k, v) :: rest, n => if k = n then some v else assocFind rest n

/-- JavaScript truthiness of a JSON value: null, false, 0 and the empty
string are falsy; objects and arrays are truthy. -/
def jsTruthy : JsonVal → Bool
  | .jnull => false
  | .jbool b => b
  | .jnum n => n != 0
  | .jstr s => s != ""
  | .jarr _ => true
  | .jobj _ => true

/-- JavaScript member access `v.k` yielding `none` for undefined: object
fields are looked up, any other receiver yields undefined for the field
names the scripts use. -/
def jsField : JsonVal → String → Option JsonVal
  | .jobj fields, k => assocFind fields k
  | _, _ => none

/-- The JavaScript exceptions the embedded helpers can raise. -/
inductive JsError where
  | typeError : JsError
deriving DecidableEq

/-! ## k6 HTTP response model

An HTTP response as the scripts observe it: `status`, a `body` that is a
string or null, and the outcome of `r.json()` (`none` when parsing the
body throws, which the fourth check of `createContact` guards with its
own try/catch). The responses themselves are produced by the external
k6 HTTP client, so the embedding quantifies over them. -/

structure HttpResponse where
  status : Int
  body : Option String
  jsonData : Option JsonVal

/-- The k6 `check(response, checksObj)` combinator as the scripts rely on
it: every predicate is evaluated in insertion order, a predicate that
throws propagates its exception out of `check`, and the returned boolean
is the conjunction of all predicate results. -/
def runChecks (preds : List (HttpResponse → Except JsError Bool)) (r : HttpResponse) :
    Except JsError Bool :=
  match preds with
  | [] => .ok true
  | p :: ps => do
      let b ← p r
      let rest ← runChecks ps r
      pure (b && rest)

/-! ## createContact (src/helper/contact.js lines 27-55) -/

/-- Check 1 of createContact: `r.status === 200`. -/
def ccStatusIs200 (r : HttpResponse) : Except JsError Bool :=
  .ok (r.status == 200)

/-- Check 2 of createContact: `r.body !== null`. -/
def ccBodyNotNull (r : HttpResponse) : Except JsError Bool :=
  .ok r.body.isSome

/-- Check 3 of createContact: `r.body.length > 0`; dereferencing `length`
on a null body raises a TypeError. -/
def ccBodyNotEmpty (r : HttpResponse) : Except JsError Bool :=
  match r.body with
  | none => .error .typeError
  | some b => .ok (decide (b.length > 0))

/-- Check 4 of createContact:
`try { const body = r.json(); return body.data && body.data.first_name }
catch (e) { return false }` — a parse failure or a member access on a
null body is caught and yields false; `&&` short-circuits on a falsy
`body.data`. -/
def containsContactData (jsonData : Option JsonVal) : Bool :=
  match jsonData with
  | none => false
  | some .jnull => false
  | some body =>
      match jsField body "data" with
      | none => false
      | some d =>
          jsTruthy d &&
            (match jsField d "first_name" with
             | none => false
             | some v => jsTruthy v)

/-- The object createContact returns: `{ response, success }`. -/
structure ContactResult where
  response : HttpResponse
  success : Bool

/-- Check 4 of createContact as a check predicate (the internal
try/catch means it never throws). -/
def ccContainsData (r : HttpResponse) : Except JsError Bool :=
  .ok (containsContactData r.jsonData)

/-- `createContact(token, contactData)` from src/helper/contact.js: posts
the contact (the response the external client yields is the parameter),
runs the four checks through k6 `check`, and returns
`{ response, success }`. An exception thrown by a check propagates. -/
def createContact (response : HttpResponse) : Except JsError ContactResult := do
  let isSuccessful ← runChecks
    [ccStatusIs200, ccBodyNotNull, ccBodyNotEmpty, ccContainsData] response
  pure { response := response, success := isSuccessful }

/-! ## getUser (src/helper/user.js lines 78-107) -/

/-- The two endpoints getUser can request. -/
inductive Endpoint where
  | usersCurrent : Endpoint
  | usersMe : Endpoint
deriving DecidableEq

/-- Check 1 of getUser: `r.status === 200`. -/
def guStatusIs200 (r : HttpResponse) : Except JsError Bool :=
  .ok (r.status == 200)

/-- Check 2 of getUser: `r.body !== null`. -/
def guBodyNotNull (r : HttpResponse) : Except JsError Bool :=
  .ok r.body.isSome

/-- Check 3 of getUser: `r.body.length > 0`. -/
def guBodyNotEmpty (r : HttpResponse) : Except JsError Bool :=
  match r.body with
  | none => .error .typeError
  | some b => .ok (decide (b.length > 0))

/-- What one call of getUser did: the GET requests it issued in order,
and the value it returned (or the exception that escaped). -/
structure GetUserRun where
  requests : List Endpoint
  result : Except JsError HttpResponse

/-- The three validation checks of getUser, in source order. -/
def guPreds : List (HttpResponse → Except JsError Bool) :=
  [guStatusIs200, guBodyNotNull, guBodyNotEmpty]

/-- `getUser(token)` from src/helper/user.js: GET /api/users/current
first; exactly when that status is not 200, GET /api/users/me and keep
that response; run the three validation checks (whose boolean result is
discarded, only a thrown exception escapes); return the kept response.
`primary` is the response of the current endpoint, `fallbackResp` the
response the me endpoint would return if asked. -/
def getUser (primary fallbackResp : HttpResponse) : GetUserRun :=
  let picked :=
    if primary.status == 200 then ([Endpoint.usersCurrent], primary)
    else ([Endpoint.usersCurrent, Endpoint.usersMe], fallbackResp)
  match runChecks guPreds picked.2 with
  | .ok _ => { requests := picked.1, result := .ok picked.2 }
  | .error e => { requests := picked.1, result := .error e }

/-! ## Theorems about the helper embedding (claims C9 and C10) -/

/-- The conjunction of the four createContact checks, spelled out. -/
def ccAllChecksPass (r : HttpResponse) : Bool :=
  (r.status == 200) && r.body.isSome &&
    (match r.body with
     | none => false
     | some b => decide (b.length > 0)) &&
    containsContactData r.jsonData

/-- A successful contact-creation response used as a concrete input. -/
def respGood : HttpResponse :=
  { status := 200
    body := some "x"
    jsonData := some (.jobj [("data", .jobj [("first_name", .jstr "John")])]) }

/-- Claim C9 counterexample: at the concrete response with status 200 and
a null body, createContact raises a TypeError (the third check
dereferences `r.body.length` on null and k6 `check` propagates the
exception), so, as stated, createContact does not always return a result
object and can throw. -/
theorem createContact_null_body_throws :
    createContact { status := 200, body := none, jsonData := none } =
      Except.error JsError.typeError := rfl

/-- Claim C9 (amended): for every response whose body is not null,
createContact never throws and returns an object with exactly the fields
`response` (the HTTP response) and `success`; `success` is true iff all
four checks pass (status 200, body not null, body non-empty, parsed JSON
body has a truthy data.first_name), and a malformed JSON body makes the
fourth check false via its internal try/catch rather than raising. -/
theorem createContact_success_iff_checks (r : HttpResponse) (b : String)
    (hb : r.body = some b) :
    createContact r = Except.ok { response := r, success := ccAllChecksPass r } ∧
    (ccAllChecksPass r = true ↔
      (r.status = 200 ∧ r.body ≠ none ∧ 0 < b.length ∧
        containsContactData r.jsonData = true)) ∧
    (r.jsonData = none → containsContactData r.jsonData = false) := by
  refine ⟨?_, ?_, ?_⟩
  · simp [createContact, runChecks, ccStatusIs200, ccBodyNotNull, ccBodyNotEmpty,
      ccContainsData, ccAllChecksPass, hb, bind, Except.bind, pure, Except.pure,
      Bool.and_assoc]
  · simp [ccAllChecksPass, hb, Bool.and_assoc, Option.isSome_iff_ne_none,
      Nat.pos_iff_ne_zero]
  · intro h; simp [h, containsContactData]

/-- Witness for the amended C9 theorem at a concrete passing response. -/
theorem createContact_success_iff_checks_witness :
    createContact respGood = Except.ok { response := respGood, success := ccAllChecksPass respGood } ∧
    ccAllChecksPass respGood = true :=
  ⟨(createContact_success_iff_checks respGood "x" rfl).1, by decide⟩

/-- Claim C10 counterexample: at the concrete pair where the primary
response has status 500 (so the fallback GET is issued) and the fallback
response has a null body, getUser does not return the second response —
the third validation check dereferences `r.body.length` on null and the
TypeError propagates out of getUser, so the claim's unconditional
"returns that second response" fails at this input. -/
theorem getUser_null_body_throws :
    (getUser ⟨500, some "down", none⟩ ⟨200, none, none⟩).requests =
      [Endpoint.usersCurrent, Endpoint.usersMe] ∧
    (getUser ⟨500, some "down", none⟩ ⟨200, none, none⟩).result =
      Except.error JsError.typeError :=
  ⟨rfl, rfl⟩

/-- Claim C10 (amended): getUser issues GET /api/users/current first;
exactly when that status is not 200 it issues the fallback GET
/api/users/me and the kept response is the fallback one, and when the
status is 200 the fallback is never issued and the kept response is the
primary one; any normally returned value is the kept response, and the
kept response is returned normally whenever its body is not null —
when that body is null the third validation check raises a TypeError
and getUser throws instead of returning. -/
theorem getUser_fallback (p f : HttpResponse) :
    ((getUser p f).requests =
      if p.status = 200 then [Endpoint.usersCurrent]
      else [Endpoint.usersCurrent, Endpoint.usersMe]) ∧
    (∀ r, (getUser p f).result = Except.ok r →
      r = if p.status = 200 then p else f) ∧
    (∀ b, (if p.status = 200 then p else f).body = some b →
      (getUser p f).result = Except.ok (if p.status = 200 then p else f)) ∧
    ((if p.status = 200 then p else f).body = none →
      (getUser p f).result = Except.error JsError.typeError) := by
  have hrq : ∀ (q : HttpResponse) (reqs : List Endpoint),
      GetUserRun.requests
        (match runChecks guPreds q with
         | .ok _ => { requests := reqs, result := .ok q }
         | .error e => { requests := reqs, result := .error e }) = reqs := by
    intro q reqs
    cases runChecks guPreds q <;> rfl
  have hok : ∀ (q : HttpResponse) (reqs : List Endpoint) (r : HttpResponse),
      GetUserRun.result
        (match runChecks guPreds q with
         | .ok _ => { requests := reqs, result := .ok q }
         | .error e => { requests := reqs, result := .error e }) = Except.ok r →
        r = q := by
    intro q reqs r hr
    cases hrc : runChecks guPreds q <;> rw [hrc] at hr <;> simp_all
  have hcomp : ∀ (q : HttpResponse) (reqs : List Endpoint) (b : String),
      q.body = some b →
      GetUserRun.result
        (match runChecks guPreds q with
         | .ok _ => { requests := reqs, result := .ok q }
         | .error e => { requests := reqs, result := .error e }) = Except.ok q := by
    intro q reqs b hb
    obtain ⟨v, hv⟩ : ∃ v, runChecks guPreds q = Except.ok v := by
      simp [guPreds, runChecks, guStatusIs200, guBodyNotNull, guBodyNotEmpty, hb,
        bind, Except.bind, pure, Except.pure]
    rw [hv]
  have hthrow : ∀ (q : HttpResponse) (reqs : List Endpoint),
      q.body = none →
      GetUserRun.result
        (match runChecks guPreds q with
         | .ok _ => { requests := reqs, result := .ok q }
         | .error e => { requests := reqs, result := .error e }) =
        Except.error JsError.typeError := by
    intro q reqs hb
    have hv : runChecks guPreds q = Except.error JsError.typeError := by
      simp [guPreds, runChecks, guStatusIs200, guBodyNotNull, guBodyNotEmpty, hb,
        bind, Except.bind, pure, Except.pure]
    rw [hv]
  by_cases h : p.status = 200
  · have hb : (p.status == 200) = true := by simp [h]
    simp only [getUser, hb, if_pos, h, if_true]
    exact ⟨hrq p _, fun r hr => hok p _ r hr, fun b hbb => hcomp p _ b hbb,
      fun hbn => hthrow p _ hbn⟩
  · have hb : (p.status == 200) = false := by simp [h]
    simp only [getUser, hb, Bool.false_eq_true, if_false, h, if_neg,
      not_false_iff]
    exact ⟨hrq f _, fun r hr => hok f _ r hr, fun b hbb => hcomp f _ b hbb,
      fun hbn => hthrow f _ hbn⟩

/-! ## Metric Recorder

The Metric Recorder is part of the external load-generation engine, not
of the repository, so it is modelled from the specification (spec §3
Sample/MetricSeries, §4.2). -/

/-- Modelled from the spec: the three MetricSeries kinds of §3
(Counter, Rate, Trend); the k6 engine that owns them is not in the
repository. -/
inductive MetricKind where
  | counter : MetricKind
  | rate : MetricKind
  | trend : MetricKind
deriving DecidableEq

/-- Modelled from the spec: a Sample `{metricName, value, timestampMs,
tags}` of §3; the metric name is the key under which the sample is
stored, the rest is carried here. -/
structure Sample where
  value : Int
  timestampMs : Nat
  tags : List (String × String)
deriving DecidableEq

/-- Modelled from the spec: a MetricSeries, the aggregation target of all
Samples recorded under one name, with its kind fixed at first use. -/
structure MetricSeries where
  kind : MetricKind
  samples : List Sample
deriving DecidableEq

/-- Modelled from the spec: the accumulated MetricSeries mapping of the
RunContext; series are created lazily on first sample. -/
structure RecorderState where
  series : List (String × MetricSeries)
deriving DecidableEq

/-- Modelled from the spec: the fatal recorder error of §7. -/
inductive RecError where
  | MetricKindMismatch : RecError
deriving DecidableEq

/-- The recorder state at run start: no series. -/
def emptyRecorder : RecorderState := ⟨[]⟩

/-- Append a sample to the series of a name, creating the series with
the given kind when the name is new. -/
def addSample : List (String × MetricSeries) → String → MetricKind → Sample →
    List (String × MetricSeries)
  | [], n, k, smp => [(n, ⟨k, [smp]⟩)]
  | (key, ms) :: rest, n, k, smp =>
      if key = n then (key, ⟨ms.kind, ms.samples ++ [smp]⟩) :: rest
      else (key, ms) :: addSample rest n k smp

/-- Modelled from the spec: `record(name, value, tags?)` of §4.2 — the
sample is appended, the series kind is validated against the declared
kind, and a later call declaring a different kind for the same name
fails with MetricKindMismatch. -/
def record (st : RecorderState) (kind : MetricKind) (name : String) (value : Int)
    (ts : Nat) (tags : List (String × String)) : Except RecError RecorderState :=
  match assocFind st.series name with
  | none => .ok ⟨addSample st.series name kind ⟨value, ts, tags⟩⟩
  | some ms =>
      if ms.kind = kind then .ok ⟨addSample st.series name kind ⟨value, ts, tags⟩⟩
      else .error .MetricKindMismatch

/-- Fraction of 1-valued samples among the recorded values (spec §4.2:
Rate aggregates to successes/total). -/
def rateAgg (vs : List Int) : ℚ :=
  ((vs.countP (fun v => v == 1) : ℚ)) / ((vs.length : ℚ))

/-- The recorded values sorted ascending (deterministic Trend basis). -/
def sortedValues (vs : List Int) : List Int :=
  vs.mergeSort (fun a b => decide (a ≤ b))

/-- Modelled from the spec: the nearest-rank percentile on the sorted
sample list of §4.2. -/
def nearestRank (vs : List Int) (p : Nat) : Int :=
  (sortedValues vs).getD (max 1 ((p * vs.length + 99) / 100) - 1) 0

/-- Modelled from the spec: the immutable per-metric aggregate view of
§4.2 — Counter: total sum; Rate: fraction in [0,1]; Trend: min, max,
avg and percentiles. -/
inductive AggView where
  | counterV (total : Int) : AggView
  | rateV (fraction : ℚ) : AggView
  | trendV (mn mx : Int) (avg : ℚ) (p50 p90 p95 p99 : Int) : AggView
deriving DecidableEq

/-- Aggregate one series per its kind (spec §4.2 snapshot shape). -/
def aggregate (ms : MetricSeries) : AggView :=
  let vs := ms.samples.map (·.value)
  match ms.kind with
  | .counter => .counterV vs.sum
  | .rate => .rateV (rateAgg vs)
  | .trend =>
      .trendV ((sortedValues vs).headD 0) ((sortedValues vs).getLastD 0)
        (((vs.sum : ℚ)) / ((vs.length : ℚ)))
        (nearestRank vs 50) (nearestRank vs 90) (nearestRank vs 95) (nearestRank vs 99)

/-- The aggregate view per metric name. -/
def snapshotView (st : RecorderState) : List (String × AggView) :=
  st.series.map (fun e => (e.1, aggregate e.2))

/-- Modelled from the spec: `snapshot()` of §4.2 — a pure read returning
the aggregate view and leaving the recorder state untouched. -/
def snapshot (st : RecorderState) : List (String × AggView) × RecorderState :=
  (snapshotView st, st)

/-- One `record` invocation, as data: kind declaration, name, value,
timestamp and tags. -/
structure RecordCall where
  kind : MetricKind
  name : String
  value : Int
  timestampMs : Nat
  tags : List (String × String)

/-- Run a sequence of record calls from a state; a MetricKindMismatch is
fatal (spec §7) and aborts the sequence. -/
def applyCalls : RecorderState → List RecordCall → Except RecError RecorderState
  | st, [] => .ok st
  | st, c :: cs =>
      match record st c.kind c.name c.value c.timestampMs c.tags with
      | .ok st1 => applyCalls st1 cs
      | .error e => .error e

/-- The recorded values of a name, in record order. -/
def valuesOf (st : RecorderState) (name : String) : List Int :=
  match assocFind st.series name with
  | none => []
  | some ms => ms.samples.map (·.value)

/-- The kind of the series of a name, when the series exists. -/
def kindOf (st : RecorderState) (name : String) : Option MetricKind :=
  (assocFind st.series name).map (·.kind)

/-- The values of the calls that target a given name, in call order. -/
def callsFor (cs : List RecordCall) (name : String) : List Int :=
  cs.filterMap (fun c => if c.name = name then some c.value else none)

/-! ### Recorder lemmas -/

lemma assocFind_addSample_self (l : List (String × MetricSeries)) (n : String)
    (k : MetricKind) (smp : Sample) :
    assocFind (addSample l n k smp) n =
      some (match assocFind l n with
            | none => ⟨k, [smp]⟩
            | some ms => ⟨ms.kind, ms.samples ++ [smp]⟩) := by
  induction l with
  | nil => simp [addSample, assocFind]
  | cons e rest ih =>
      obtain ⟨key, ms⟩ := e
      by_cases h : key = n <;> simp [addSample, assocFind, h, ih]

lemma assocFind_addSample_ne (l : List (String × MetricSeries)) (n : String)
    (k : MetricKind) (smp : Sample) (m : String) (h : m ≠ n) :
    assocFind (addSample l n k smp) m = assocFind l m := by
  induction l with
  | nil => simp [addSample, assocFind, Ne.symm h]
  | cons e rest ih =>
      obtain ⟨key, ms⟩ := e
      by_cases hk : key = n
      · subst hk
        simp [addSample, assocFind, Ne.symm h]
      · by_cases hm : key = m <;> simp [addSample, assocFind, hk, hm, ih, h]

lemma record_ok_state (st : RecorderState) (k : MetricKind) (n : String)
    (v : Int) (ts : Nat) (tg : List (String × String)) (st1 : RecorderState)
    (h : record st k n v ts tg = .ok st1) :
    st1 = ⟨addSample st.series n k ⟨v, ts, tg⟩⟩ := by
  unfold record at h
  cases hf : assocFind st.series n <;> rw [hf] at h
  · simpa using h.symm
  · rename_i ms
    by_cases hk : ms.kind = k
    · simp only [hk, if_pos, if_true] at h
      simpa using h.symm
    · simp [hk] at h

lemma record_ok_of_compat (st : RecorderState) (k : MetricKind) (n : String)
    (v : Int) (ts : Nat) (tg : List (String × String))
    (h : kindOf st n = none ∨ kindOf st n = some k) :
    record st k n v ts tg = .ok ⟨addSample st.series n k ⟨v, ts, tg⟩⟩ := by
  unfold kindOf at h
  unfold record
  cases hf : assocFind st.series n
  · rfl
  · rename_i ms
    rw [hf] at h
    simp at h
    simp [h]

lemma valuesOf_addSample_self (st : RecorderState) (n : String) (k : MetricKind)
    (smp : Sample) :
    valuesOf ⟨addSample st.series n k smp⟩ n = valuesOf st n ++ [smp.value] := by
  unfold valuesOf
  rw [show (RecorderState.mk (addSample st.series n k smp)).series
        = addSample st.series n k smp from rfl]
  rw [assocFind_addSample_self]
  cases hf : assocFind st.series n <;> simp

lemma valuesOf_addSample_ne (st : RecorderState) (n : String) (k : MetricKind)
    (smp : Sample) (m : String) (h : m ≠ n) :
    valuesOf ⟨addSample st.series n k smp⟩ m = valuesOf st m := by
  unfold valuesOf
  rw [show (RecorderState.mk (addSample st.series n k smp)).series
        = addSample st.series n k smp from rfl]
  rw [assocFind_addSample_ne _ _ _ _ _ h]

lemma kindOf_addSample_self (st : RecorderState) (n : String) (k : MetricKind)
    (smp : Sample) :
    kindOf ⟨addSample st.series n k smp⟩ n =
      some ((kindOf st n).getD k) := by
  unfold kindOf
  rw [show (RecorderState.mk (addSample st.series n k smp)).series
        = addSample st.series n k smp from rfl]
  rw [assocFind_addSample_self]
  cases hf : assocFind st.series n <;> simp

lemma kindOf_addSample_ne (st : RecorderState) (n : String) (k : MetricKind)
    (smp : Sample) (m : String) (h : m ≠ n) :
    kindOf ⟨addSample st.series n k smp⟩ m = kindOf st m := by
  unfold kindOf
  rw [show (RecorderState.mk (addSample st.series n k smp)).series
        = addSample st.series n k smp from rfl]
  rw [assocFind_addSample_ne _ _ _ _ _ h]

lemma callsFor_cons (c : RecordCall) (cs : List RecordCall) (name : String) :
    callsFor (c :: cs) name =
      (if c.name = name then [c.value] else []) ++ callsFor cs name := by
  by_cases h : c.name = name <;> simp [callsFor, h]

lemma applyCalls_values (cs : List RecordCall) (st st1 : RecorderState)
    (h : applyCalls st cs = .ok st1) (name : String) :
    valuesOf st1 name = valuesOf st name ++ callsFor cs name := by
  induction cs generalizing st with
  | nil =>
      simp only [applyCalls, Except.ok.injEq] at h
      subst h
      simp [callsFor]
  | cons c cs ih =>
      unfold applyCalls at h
      cases hr : record st c.kind c.name c.value c.timestampMs c.tags <;>
        rw [hr] at h
      · cases h
      · rename_i st2
        have hst2 := record_ok_state _ _ _ _ _ _ _ hr
        subst hst2
        rw [ih _ h, callsFor_cons]
        by_cases hn : c.name = name
        · subst hn
          rw [valuesOf_addSample_self]
          simp
        · rw [valuesOf_addSample_ne _ _ _ _ _ (Ne.symm hn)]
          simp [hn]

lemma assocFind_snapshotView (st : RecorderState) (name : String) :
    assocFind (snapshotView st) name = (assocFind st.series name).map aggregate := by
  unfold snapshotView
  induction st.series with
  | nil => simp [assocFind]
  | cons e rest ih =>
      obtain ⟨key, ms⟩ := e
      by_cases h : key = name <;> simp [assocFind, h, ih]

lemma rateAgg_mem_unit (vs : List Int) : 0 ≤ rateAgg vs ∧ rateAgg vs ≤ 1 := by
  rcases Nat.eq_zero_or_pos vs.length with h | h
  · obtain rfl := List.length_eq_zero.mp h
    norm_num [rateAgg]
  · constructor
    · unfold rateAgg
      positivity
    · unfold rateAgg
      rw [div_le_one (by exact_mod_cast h)]
      exact_mod_cast List.countP_le_length _

lemma sum_eq_length_of_all_one (l : List Int) (h : ∀ v ∈ l, v = 1) :
    l.sum = (l.length : Int) := by
  induction l with
  | nil => simp
  | cons x xs ih =>
      have hx := h x (by simp)
      simp only [List.sum_cons, List.length_cons, hx]
      rw [ih (fun v hv => h v (by simp [hv]))]
      push_cast
      ring

/-! ### Theorems about the Metric Recorder (claims C5 and C8) -/

/-- A record call giving a Counter a value other than 1. -/
def callTwo : RecordCall := ⟨.counter, "c", 2, 0, []⟩

/-- The recorder state after running just that call. -/
def stTwo : RecorderState := ⟨[("c", ⟨.counter, [⟨2, 0, []⟩]⟩)]⟩

/-- Claim C5 counterexample: after the single record call with value 2
on the Counter metric c, the snapshot aggregate of c is 2 while the
count of record calls with that name is 1, so the aggregate is not the
count of record calls. (Modelled from the spec: §4.2 defines the Counter
aggregate as the total sum.) -/
theorem counter_sum_vs_count_counterexample :
    applyCalls emptyRecorder [callTwo] = Except.ok stTwo ∧
    assocFind (snapshotView stTwo) "c" = some (AggView.counterV 2) ∧
    (callsFor [callTwo] "c").length = 1 ∧ (2 : Int) ≠ (1 : Int) :=
  ⟨rfl, rfl, rfl, by decide⟩

/-- Claim C5 (amended): for every sequence of record calls (run from the
empty recorder without a kind mismatch) and every metric name, the
snapshot aggregate of a Rate metric is a fraction in [0,1], and the
aggregate of a Counter metric is the total sum of the recorded values —
which equals the count of record calls with that name whenever every
such call records the value 1 (as every Counter use in the scripts
does), and is then a non-negative integer. -/
theorem recorder_aggregates (cs : List RecordCall) (st1 : RecorderState)
    (h : applyCalls emptyRecorder cs = Except.ok st1) (name : String) :
    (kindOf st1 name = some .rate →
      ∃ q, assocFind (snapshotView st1) name = some (.rateV q) ∧ 0 ≤ q ∧ q ≤ 1) ∧
    (kindOf st1 name = some .counter →
      assocFind (snapshotView st1) name = some (.counterV (callsFor cs name).sum) ∧
      ((∀ c ∈ cs, c.name = name → c.value = 1) →
        (callsFor cs name).sum = ((callsFor cs name).length : Int) ∧
        0 ≤ (callsFor cs name).sum)) := by
  have hv : valuesOf st1 name = callsFor cs name := by
    have := applyCalls_values cs emptyRecorder st1 h name
    simpa [valuesOf, emptyRecorder, assocFind] using this
  have hview := assocFind_snapshotView st1 name
  constructor
  · intro hk
    obtain ⟨ms, hms⟩ : ∃ ms, assocFind st1.series name = some ms := by
      unfold kindOf at hk
      cases hf : assocFind st1.series name <;> rw [hf] at hk <;> simp_all
    have hkind : ms.kind = .rate := by
      unfold kindOf at hk
      rw [hms] at hk
      simpa using hk
    refine ⟨rateAgg (ms.samples.map (·.value)), ?_, rateAgg_mem_unit _⟩
    rw [hview, hms]
    simp [aggregate, hkind]
  · intro hk
    obtain ⟨ms, hms⟩ : ∃ ms, assocFind st1.series name = some ms := by
      unfold kindOf at hk
      cases hf : assocFind st1.series name <;> rw [hf] at hk <;> simp_all
    have hkind : ms.kind = .counter := by
      unfold kindOf at hk
      rw [hms] at hk
      simpa using hk
    have hvals : ms.samples.map (·.value) = callsFor cs name := by
      rw [← hv]
      unfold valuesOf
      rw [hms]
    constructor
    · rw [hview, hms]
      simp [aggregate, hkind, hvals]
    · intro hall
      have hone : ∀ v ∈ callsFor cs name, v = 1 := by
        intro v hvmem
        obtain ⟨c, hc, hcv⟩ := List.mem_filterMap.mp hvmem
        by_cases hn : c.name = name
        · simp only [hn, if_pos, if_true, Option.some.injEq] at hcv
          rw [← hcv]
          exact hall c hc hn
        · simp [hn] at hcv
      refine ⟨sum_eq_length_of_all_one _ hone, ?_⟩
      rw [sum_eq_length_of_all_one _ hone]
      positivity

/-- Witness for the amended C5 theorem: one Rate call with value 1 and
one Counter call with value 1, run from the empty recorder. -/
theorem recorder_aggregates_witness :
    (∃ q, assocFind (snapshotView ⟨[("r", ⟨.rate, [⟨1, 0, []⟩]⟩),
        ("k", ⟨.counter, [⟨1, 0, []⟩]⟩)]⟩) "r" = some (.rateV q) ∧ 0 ≤ q ∧ q ≤ 1) ∧
    (assocFind (snapshotView ⟨[("r", ⟨.rate, [⟨1, 0, []⟩]⟩),
        ("k", ⟨.counter, [⟨1, 0, []⟩]⟩)]⟩) "k" =
      some (.counterV (callsFor [⟨.rate, "r", 1, 0, []⟩, ⟨.counter, "k", 1, 0, []⟩] "k").sum)) := by
  have happ : applyCalls emptyRecorder [⟨.rate, "r", 1, 0, []⟩, ⟨.counter, "k", 1, 0, []⟩] =
      Except.ok ⟨[("r", ⟨.rate, [⟨1, 0, []⟩]⟩), ("k", ⟨.counter, [⟨1, 0, []⟩]⟩)]⟩ := rfl
  exact ⟨(recorder_aggregates _ _ happ "r").1 rfl,
         ((recorder_aggregates _ _ happ "k").2 rfl).1⟩

/-- Claim C8: snapshot is a pure read — it returns the recorder state
unchanged, and calling it twice with no intervening record call yields
identical aggregates for every metric. -/
theorem snapshot_pure_idempotent (st : RecorderState) :
    (snapshot st).2 = st ∧
    (snapshot (snapshot st).2).1 = (snapshot st).1 ∧
    (∀ name, assocFind (snapshot (snapshot st).2).1 name =
      assocFind (snapshot st).1 name) :=
  ⟨rfl, rfl, fun _ => rfl⟩

/-! ## Stage Scheduler

The Stage Scheduler is part of the external engine; it is modelled from
the specification (spec §3 Stage, §4.1). The scripts only declare Stage
lists (`options.stages`). -/

/-- Modelled from the spec: a Stage
`{ durationMs : integer ≥ 0, targetConcurrency : integer ≥ 0 }` of §3. -/
structure Stage where
  durationMs : Nat
  targetConcurrency : Nat
deriving DecidableEq

/-- Linear interpolation from `a` toward `b` after `t` of `d`
milliseconds, on integers. -/
def linInterp (a b : Nat) (t d : Nat) : Int :=
  (a : Int) + (((b : Int) - (a : Int)) * (t : Int)) / (d : Int)

/-- Modelled from the spec: the desired-concurrency curve of §4.1 —
within the current stage, linear interpolation between the previous
stage target (`prev`, the startConcurrency for the first stage) and the
current stage target over the elapsed time within the stage; a stage
whose duration has fully elapsed hands over with its target as the new
`prev`, so a stage with durationMs = 0 snaps desired concurrency to its
target instantly; after the last stage the last target is held. -/
def desiredAt (prev : Nat) : List Stage → Nat → Int
  | [], _ => (prev : Int)
  | st :: rest, t =>
      if t < st.durationMs then linInterp prev st.targetConcurrency t st.durationMs
      else desiredAt st.targetConcurrency rest (t - st.durationMs)

/-- Claim C2: within a stage the desired concurrency is the linear
interpolation between the previous target and the stage target over the
elapsed time in the stage; a zero-duration stage collapses the
interpolation window to a point, handing its target over immediately;
and for the spike list [{0ms, 5 to 200}] the desired concurrency is 200
at stage entry and at every later instant, with no intermediate value. -/
theorem stage_interpolation_and_spike :
    (∀ (prev : Nat) (st : Stage) (rest : List Stage) (t : Nat),
      t < st.durationMs →
      desiredAt prev (st :: rest) t = linInterp prev st.targetConcurrency t st.durationMs) ∧
    (∀ (prev target : Nat) (rest : List Stage) (t : Nat),
      desiredAt prev (⟨0, target⟩ :: rest) t = desiredAt target rest t) ∧
    (∀ t : Nat, desiredAt 5 [⟨0, 200⟩] t = 200) := by
  refine ⟨?_, ?_, ?_⟩
  · intro prev st rest t ht
    simp [desiredAt, ht]
  · intro prev target rest t
    simp [desiredAt]
  · intro t
    simp [desiredAt]

/-- Witness for C2 at a concrete in-stage instant: 50ms into a 100ms
ramp from 0 to 10. -/
theorem stage_interpolation_and_spike_witness :
    desiredAt 0 [⟨100, 10⟩] 50 = linInterp 0 10 50 100 :=
  stage_interpolation_and_spike.1 0 ⟨100, 10⟩ [] 50 (by decide)

/-! ## Worker lifecycle

Workers are owned by the external engine scheduler; the transition
system below is modelled from the specification (spec §3 Worker, §4.1,
§5 cancellation). -/

/-- Modelled from the spec: the Worker states of §3. -/
inductive WState where
  | Idle : WState
  | Running : WState
  | Stopping : WState
  | Stopped : WState
deriving DecidableEq

/-- Modelled from the spec: a Worker with its unique monotonic id, its
state, and whether an iteration is currently in flight. -/
structure Worker where
  id : Nat
  state : WState
  inIteration : Bool
deriving DecidableEq

/-- Modelled from the spec: the live-worker part of the RunContext. -/
structure SchedState where
  live : List Worker
  nextId : Nat

/-- Replace the state and iteration flag of the worker with a given id. -/
def setWorker (live : List Worker) (i : Nat) (st : WState) (itFlag : Bool) :
    List Worker :=
  live.map fun w => if w.id = i then ⟨w.id, st, itFlag⟩ else w

/-- Modelled from the spec: the scheduler transitions of §4.1 and §5 —
spawn a fresh Idle worker when desired concurrency rises, activate it,
start and finish iterations, mark a Running worker Stopping when desired
concurrency falls, and retire (remove from the live set) a Stopping
worker only once its current iteration is complete; there is no other
removal path and no hard kill. -/
inductive SchedStep : SchedState → SchedState → Prop
  | spawn (s : SchedState) :
      SchedStep s ⟨s.live ++ [⟨s.nextId, .Idle, false⟩], s.nextId + 1⟩
  | activate (s : SchedState) (w : Worker) (hw : w ∈ s.live)
      (hst : w.state = .Idle) :
      SchedStep s ⟨setWorker s.live w.id .Running w.inIteration, s.nextId⟩
  | startIter (s : SchedState) (w : Worker) (hw : w ∈ s.live)
      (hst : w.state = .Running) (hit : w.inIteration = false) :
      SchedStep s ⟨setWorker s.live w.id .Running true, s.nextId⟩
  | finishIter (s : SchedState) (w : Worker) (hw : w ∈ s.live)
      (hit : w.inIteration = true) :
      SchedStep s ⟨setWorker s.live w.id w.state false, s.nextId⟩
  | markStopping (s : SchedState) (w : Worker) (hw : w ∈ s.live)
      (hst : w.state = .Running) :
      SchedStep s ⟨setWorker s.live w.id .Stopping w.inIteration, s.nextId⟩
  | retire (s : SchedState) (w : Worker) (hw : w ∈ s.live)
      (hst : w.state = .Stopping) (hit : w.inIteration = false) :
      SchedStep s ⟨s.live.filter (fun v => v.id ≠ w.id), s.nextId⟩

lemma setWorker_preserves_ids (live : List Worker) (i : Nat) (st : WState)
    (fl : Bool) (w : Worker) (hw : w ∈ live) :
    ∃ w1 ∈ setWorker live i st fl, w1.id = w.id := by
  unfold setWorker
  refine ⟨if w.id = i then ⟨w.id, st, fl⟩ else w,
    List.mem_map.mpr ⟨w, hw, rfl⟩, ?_⟩
  by_cases h : w.id = i <;> simp [h]

/-- Claim C1: across every scheduler transition, a worker whose id
disappears from the live set was in state Stopping with no iteration in
flight — a Running worker is never removed and nothing is aborted
mid-iteration; the only removal path is Stopping after the current
iteration completes. -/
theorem worker_removal_requires_stopping (s s1 : SchedState)
    (hnd : (s.live.map Worker.id).Nodup) (hstep : SchedStep s s1)
    (w : Worker) (hw : w ∈ s.live)
    (hgone : ∀ w1 ∈ s1.live, w1.id ≠ w.id) :
    w.state = .Stopping ∧ w.inIteration = false := by
  cases hstep with
  | spawn =>
      exact absurd rfl (hgone w (by simp [hw]))
  | activate v hv hst =>
      obtain ⟨w1, hw1, hid⟩ := setWorker_preserves_ids s.live v.id .Running v.inIteration w hw
      exact absurd hid (hgone w1 hw1)
  | startIter v hv hst hit =>
      obtain ⟨w1, hw1, hid⟩ := setWorker_preserves_ids s.live v.id .Running true w hw
      exact absurd hid (hgone w1 hw1)
  | finishIter v hv hit =>
      obtain ⟨w1, hw1, hid⟩ := setWorker_preserves_ids s.live v.id v.state false w hw
      exact absurd hid (hgone w1 hw1)
  | markStopping v hv hst =>
      obtain ⟨w1, hw1, hid⟩ := setWorker_preserves_ids s.live v.id .Stopping v.inIteration w hw
      exact absurd hid (hgone w1 hw1)
  | retire v hv hst hit =>
      have hid : w.id = v.id := by
        by_contra hne
        have hmem : w ∈ s.live.filter (fun x => x.id ≠ v.id) :=
          List.mem_filter.mpr ⟨hw, by simpa using hne⟩
        exact absurd rfl (hgone w hmem)
      have hwv : w = v := List.inj_on_of_nodup_map hnd hw hv hid
      subst hwv
      exact ⟨hst, hit⟩

/-- Witness for C1: the retire transition removing the single Stopping,
iteration-complete worker of id 0. -/
theorem worker_removal_requires_stopping_witness :
    (⟨0, WState.Stopping, false⟩ : Worker).state = WState.Stopping ∧
    (⟨0, WState.Stopping, false⟩ : Worker).inIteration = false := by
  have hfil : (([⟨0, WState.Stopping, false⟩] : List Worker).filter
      (fun v => v.id ≠ (⟨0, WState.Stopping, false⟩ : Worker).id)) = [] := rfl
  have hstep : SchedStep ⟨[⟨0, WState.Stopping, false⟩], 1⟩ ⟨[], 1⟩ := by
    have h := SchedStep.retire ⟨[⟨0, WState.Stopping, false⟩], 1⟩
      ⟨0, WState.Stopping, false⟩ (by simp) rfl rfl
    rw [hfil] at h
    exact h
  exact worker_removal_requires_stopping ⟨[⟨0, WState.Stopping, false⟩], 1⟩ ⟨[], 1⟩
    (by simp) hstep ⟨0, WState.Stopping, false⟩ (by simp) (by simp)

/-! ## Worker iteration loop

The loop body of §4.1 ("execute Workload Function, record iteration
duration, repeat", with its failure semantics) is engine code, modelled
from the specification. The in-source catch blocks of the soak and
smoke scripts (record an error Counter sample, record a 0-valued
success Rate sample, continue) are the repository-side evidence of the
same catch-record-proceed discipline. -/

/-- Whether an executed iteration raised. -/
def isErr (r : Except String Nat) : Bool :=
  match r with
  | .ok _ => false
  | .error _ => true

/-- Modelled from the spec: the Worker iteration loop of §4.1 — run the
Workload Function (returning the iteration duration); on success record
the duration under the iteration_duration Trend; when the function
throws, catch it, record a failure sample of value 1 under the reserved
iteration_errors Counter, and proceed to the next iteration. A
MetricKindMismatch is the only fatal outcome (spec §7). -/
def workerLoop (wf : Nat → Except String Nat) :
    Nat → Nat → RecorderState → Except RecError RecorderState
  | 0, _, st => .ok st
  | Nat.succ n, i, st =>
      match wf i with
      | .ok dur =>
          match record st .trend "iteration_duration" (dur : Int) 0 [] with
          | .ok st1 => workerLoop wf n (i + 1) st1
          | .error e => .error e
      | .error _ =>
          match record st .counter "iteration_errors" 1 0 [] with
          | .ok st1 => workerLoop wf n (i + 1) st1
          | .error e => .error e

/-- The Counter aggregate of a name (sum of its recorded values). -/
def counterValue (st : RecorderState) (name : String) : Int :=
  (valuesOf st name).sum

/-- The failure samples the loop records for iterations i, i+1, ...,
i+n-1, in order. -/
def errMarks (wf : Nat → Except String Nat) : Nat → Nat → List Int
  | 0, _ => []
  | Nat.succ n, i => (if isErr (wf i) then [1] else []) ++ errMarks wf n (i + 1)

/-- The two loop metrics keep their declared kinds. -/
def loopCompatible (st : RecorderState) : Prop :=
  (kindOf st "iteration_errors" = none ∨
    kindOf st "iteration_errors" = some .counter) ∧
  (kindOf st "iteration_duration" = none ∨
    kindOf st "iteration_duration" = some .trend)

lemma workerLoop_ok (wf : Nat → Except String Nat) :
    ∀ (n i : Nat) (st : RecorderState), loopCompatible st →
    ∃ st1, workerLoop wf n i st = .ok st1 ∧ loopCompatible st1 ∧
      valuesOf st1 "iteration_errors" =
        valuesOf st "iteration_errors" ++ errMarks wf n i := by
  intro n
  induction n with
  | zero =>
      intro i st hc
      exact ⟨st, rfl, hc, by simp [errMarks]⟩
  | succ n ih =>
      intro i st hc
      have hne : ("iteration_errors" : String) ≠ "iteration_duration" := by decide
      cases hwf : wf i with
      | ok dur =>
          have hrec := record_ok_of_compat st .trend "iteration_duration"
            (dur : Int) 0 [] hc.2
          set st1 : RecorderState :=
            ⟨addSample st.series "iteration_duration" .trend ⟨(dur : Int), 0, []⟩⟩ with hst1
          have hc1 : loopCompatible st1 := by
            constructor
            · rw [hst1]
              rw [kindOf_addSample_ne st "iteration_duration" .trend _ _ hne]
              exact hc.1
            · rw [hst1, kindOf_addSample_self]
              rcases hc.2 with h | h <;> simp [h]
          obtain ⟨st2, hrun, hc2, hvals⟩ := ih (i + 1) st1 hc1
          refine ⟨st2, ?_, hc2, ?_⟩
          · simp only [workerLoop, hwf, hrec]
            exact hrun
          · rw [hvals, hst1,
              valuesOf_addSample_ne st "iteration_duration" .trend _ _ hne]
            simp [errMarks, isErr, hwf]
      | error e =>
          have hrec := record_ok_of_compat st .counter "iteration_errors"
            1 0 [] hc.1
          set st1 : RecorderState :=
            ⟨addSample st.series "iteration_errors" .counter ⟨1, 0, []⟩⟩ with hst1
          have hc1 : loopCompatible st1 := by
            constructor
            · rw [hst1, kindOf_addSample_self]
              rcases hc.1 with h | h <;> simp [h]
            · rw [hst1]
              rw [kindOf_addSample_ne st "iteration_errors" .counter _ _ hne.symm]
              exact hc.2
          obtain ⟨st2, hrun, hc2, hvals⟩ := ih (i + 1) st1 hc1
          refine ⟨st2, ?_, hc2, ?_⟩
          · simp only [workerLoop, hwf, hrec]
            exact hrun
          · rw [hvals, hst1, valuesOf_addSample_self]
            simp [errMarks, isErr, hwf]

lemma errMarks_all_throwing (wf : Nat → Except String Nat)
    (h : ∀ k, isErr (wf k) = true) :
    ∀ (n i : Nat), errMarks wf n i = List.replicate n 1 := by
  intro n
  induction n with
  | zero => intro i; simp [errMarks]
  | succ n ih => intro i; simp [errMarks, h i, ih, List.replicate_succ]

/-- Claim C3: the Worker catches a throwing Workload Function, records a
failure sample of value 1 under the reserved iteration_errors Counter
and proceeds — the loop completes all n iterations whatever the Workload
Function does, the recorded failure samples are exactly the failing
iterations in order, and for a Workload Function that throws on every
call the iteration_errors Counter at run end equals the total number of
iteration attempts n. -/
theorem worker_error_recovery (wf : Nat → Except String Nat) (n : Nat) :
    ∃ st1, workerLoop wf n 0 emptyRecorder = Except.ok st1 ∧
      valuesOf st1 "iteration_errors" = errMarks wf n 0 ∧
      counterValue st1 "iteration_errors" = (errMarks wf n 0).sum ∧
      ((∀ k, isErr (wf k) = true) →
        counterValue st1 "iteration_errors" = (n : Int) ∧
        (valuesOf st1 "iteration_errors").length = n) := by
  have hc : loopCompatible emptyRecorder := by
    constructor <;> left <;> rfl
  obtain ⟨st1, hrun, _, hvals⟩ := workerLoop_ok wf n 0 emptyRecorder hc
  have hempty : valuesOf emptyRecorder "iteration_errors" = [] := rfl
  rw [hempty, List.nil_append] at hvals
  refine ⟨st1, hrun, hvals, by rw [counterValue, hvals], ?_⟩
  intro hall
  rw [counterValue, hvals, errMarks_all_throwing wf hall n 0]
  constructor
  · simp [List.sum_replicate]
  · simp

/-! ## Threshold Evaluator and Test Runner

Both are engine components, modelled from the specification (§4.4,
§4.5, §6); the scripts only declare `options.thresholds`. -/

/-- Modelled from the spec: the §7 error for a Threshold naming a metric
that was never recorded. -/
inductive EvalError where
  | UnknownMetric : EvalError
deriving DecidableEq

/-- Modelled from the spec: a Threshold {metricName, expression,
abortOnFail} of §3. -/
structure Threshold where
  metricName : String
  expr : AggView → Bool
  abortOnFail : Bool

/-- Modelled from the spec: a per-threshold entry of the §4.4 output —
passed verdict and the resolved actual value, with the resolution
failure when the metric is unknown (the expression itself is the
Threshold carried alongside). -/
structure ThresholdResult where
  passed : Bool
  actualValue : Option AggView
  failure : Option EvalError

/-- Modelled from the spec: evaluate one Threshold against the final
snapshot — a name that was never recorded fails the threshold with
UnknownMetric instead of crashing; otherwise the expression decides. -/
def evalThreshold (snap : List (String × AggView)) (t : Threshold) : ThresholdResult :=
  match assocFind snap t.metricName with
  | none => ⟨false, none, some .UnknownMetric⟩
  | some v => ⟨t.expr v, some v, none⟩

/-- Modelled from the spec: the §4.4 evaluator output
`{passed, perThreshold}`. -/
structure Report where
  passed : Bool
  perThreshold : List (String × ThresholdResult)

/-- Modelled from the spec: end-of-run evaluation — every threshold is
evaluated (the function is total: an unknown metric is a failed entry,
never a crash) and the overall verdict is the conjunction. -/
def evaluate (snap : List (String × AggView)) (ts : List Threshold) : Report :=
  let results := ts.map fun t => (t.metricName, evalThreshold snap t)
  ⟨results.all fun p => p.2.passed, results⟩

/-- Modelled from the spec: the Test Runner's terminal behavior (§4.5,
§6) — process exit code 0 when the overall verdict passed, non-zero
otherwise. -/
def exitCode (rep : Report) : Nat :=
  if rep.passed then 0 else 1

/-- Claim C6: a Threshold whose metric name was never recorded is failed
with UnknownMetric, appears as a failed entry of the per-threshold
output, and makes the overall verdict false — evaluation is a total
function, so the run is not crashed. -/
theorem unknown_metric_threshold_fails (snap : List (String × AggView))
    (ts : List Threshold) (t : Threshold) (ht : t ∈ ts)
    (hm : assocFind snap t.metricName = none) :
    evalThreshold snap t =
      ⟨false, none, some EvalError.UnknownMetric⟩ ∧
    (t.metricName, evalThreshold snap t) ∈ (evaluate snap ts).perThreshold ∧
    (evaluate snap ts).passed = false := by
  have h1 : evalThreshold snap t = ⟨false, none, some EvalError.UnknownMetric⟩ := by
    unfold evalThreshold
    rw [hm]
  refine ⟨h1, ?_, ?_⟩
  · exact List.mem_map.mpr ⟨t, ht, rfl⟩
  · show (ts.map fun t => (t.metricName, evalThreshold snap t)).all
        (fun p => p.2.passed) = false
    rw [List.all_eq_false]
    exact ⟨(t.metricName, evalThreshold snap t),
      List.mem_map.mpr ⟨t, ht, rfl⟩, by simp [h1]⟩

/-- Witness for C6: one threshold on a metric absent from an empty
snapshot. -/
theorem unknown_metric_threshold_fails_witness :
    evalThreshold [] ⟨"missing", fun _ => true, false⟩ =
      ⟨false, none, some EvalError.UnknownMetric⟩ ∧
    (evaluate [] [⟨"missing", fun _ => true, false⟩]).passed = false := by
  have h := unknown_metric_threshold_fails []
    [⟨"missing", fun _ => true, false⟩] ⟨"missing", fun _ => true, false⟩
    (by simp) rfl
  exact ⟨h.1, h.2.2⟩

/-- Claim C4: for every completed run the process exit code is 0 iff
the overall passed verdict is true, and non-zero iff it is false. -/
theorem exit_code_zero_iff_passed (snap : List (String × AggView))
    (ts : List Threshold) :
    (exitCode (evaluate snap ts) = 0 ↔ (evaluate snap ts).passed = true) ∧
    (exitCode (evaluate snap ts) ≠ 0 ↔ (evaluate snap ts).passed = false) := by
  cases h : (evaluate snap ts).passed <;> simp [exitCode, h]

/-! ## Environment independence of desired concurrency (claim C7) -/

/-- An environment of `__ENV` variables (only the numeric K6_VUS hint
matters to the scripts). -/
def EnvMap : Type := String → Option Nat

/-- Modelled from the spec: the §9 design note — the scheduler derives
desired concurrency deterministically from elapsed time and the Stage
list alone; the environment is passed in but never consulted. -/
def schedDesired (startConc : Nat) (stages : List Stage) (_e : EnvMap) (t : Nat) : Int :=
  desiredAt startConc stages t

/-- determineSpikePhase from src/loadtest/spike-test.js: the VU-count
environment hint mapped to a phase label. -/
def determineSpikePhase (currentVUs : Nat) : String :=
  if currentVUs ≥ 200 then "primary_spike"
  else if currentVUs ≥ 150 then "secondary_spike"
  else if currentVUs ≥ 50 then "recovery"
  else if currentVUs ≥ 10 then "stabilization"
  else "baseline"

/-- The stress-test phase approximation of the stress script:
`__ENV.K6_VUS || 1` compared against 100/60/30. -/
def stressPhaseOfEnv (e : EnvMap) : String :=
  let currentVUs := (e "K6_VUS").getD 1
  if currentVUs ≥ 100 then "peak"
  else if currentVUs ≥ 60 then "high"
  else if currentVUs ≥ 30 then "medium"
  else "warmup"

/-- The spike-test phase approximation:
`__ENV.K6_VUS || 1` fed to determineSpikePhase. -/
def spikePhaseOfEnv (e : EnvMap) : String :=
  determineSpikePhase ((e "K6_VUS").getD 1)

/-- An environment with no K6_VUS hint. -/
def envNoVus : EnvMap := fun _ => none

/-- The same environment except that K6_VUS is 200. -/
def envHighVus : EnvMap := fun k => if k = "K6_VUS" then some 200 else none

/-- Claim C7: desired concurrency is a deterministic function of elapsed
time and the Stage list alone — two environments always observe the same
value — while the environment-variable-polling phase approximation of
the source scripts is not environment-independent: two environments
differing only in K6_VUS give different stress and spike phases, so the
modelled scheduler does not reproduce it. -/
theorem desired_concurrency_env_independent :
    (∀ (startConc : Nat) (stages : List Stage) (e1 e2 : EnvMap) (t : Nat),
      schedDesired startConc stages e1 t = schedDesired startConc stages e2 t) ∧
    (∀ k, k ≠ "K6_VUS" → envNoVus k = envHighVus k) ∧
    stressPhaseOfEnv envNoVus ≠ stressPhaseOfEnv envHighVus ∧
    spikePhaseOfEnv envNoVus ≠ spikePhaseOfEnv envHighVus := by
  refine ⟨fun _ _ _ _ _ => rfl, ?_, ?_, ?_⟩
  · intro k hk
    simp [envNoVus, envHighVus, hk]
  · decide
  · decide

end K6
